import Mathlib

/-!
Verification of the incremental-sync core of a backup program
(`main.py`): object-key derivation, the per-file upload decision
`object_exists_and_modified`, the walk loop `incremental_upload`, and the
top-level orchestration `main`.

The embedding is shallow: the remote object store is a map from keys to a
recorded last-modified time (integer seconds), backend faults are injected
through boolean oracles (one per key for the metadata lookup, one per key
for the upload), and the walk is a fold over the list of regular files
that `os.walk` yields, each file carrying its relative path and its
modification time already truncated to integer seconds
(`int(os.path.getmtime(path))`).
-/

namespace PaperlessBackup

/-! ## Object-key derivation (main.py line 319)

`s3_key = os.path.join(s3_prefix, relative_path).replace("\\", "/")`.

The string operations are modelled on `List Char`.  The pattern of the
`replace` is the single character `\`, so `replace` is a character map.
`os.path.join` is modelled for both path flavours: `posixpath.join`
(separator `/`) and `ntpath.join` (separator `\`, drive-letter handling
omitted since keys never carry drive letters). -/

/-- One character of `str.replace("\\", "/")`: a backslash becomes a
forward slash, everything else is unchanged. -/
def norm_sep (c : Char) : Char :=
  if c = '\\' then '/' else c

/-- `str.replace("\\", "/")` on the character list of the string. -/
def replace_backslashes (s : List Char) : List Char :=
  s.map norm_sep

/-- `posixpath.join(a, b)` for a single right operand: if `b` is absolute
it wins; otherwise `a` and `b` are joined, inserting `/` unless `a` is
empty or already ends in `/`. -/
def posix_join (a b : List Char) : List Char :=
  if b.take 1 = ['/'] then b
  else if a = [] ∨ a.getLast? = some '/' then a ++ b
  else a ++ ['/'] ++ b

/-- `ntpath.join(a, b)` for a single right operand without a drive
letter: both `/` and `\` count as separators, and the inserted separator
is `\`. -/
def nt_join (a b : List Char) : List Char :=
  if b.take 1 = ['/'] ∨ b.take 1 = ['\\'] then b
  else if a = [] ∨ a.getLast? = some '/' ∨ a.getLast? = some '\\' then a ++ b
  else a ++ ['\\'] ++ b

/-- Key derivation on a POSIX host:
`os.path.join(pfx, rel).replace("\\", "/")` with `os.path = posixpath`. -/
def derive_key_posix (pfx rel : List Char) : List Char :=
  replace_backslashes (posix_join pfx rel)

/-- Key derivation on a Windows host:
`os.path.join(pfx, rel).replace("\\", "/")` with `os.path = ntpath`,
where `rel = os.path.relpath(...)` uses `\` as separator. -/
def derive_key_nt (pfx rel : List Char) : List Char :=
  replace_backslashes (nt_join pfx rel)

/-- The key used by the sync engine (POSIX host), as a `String`. -/
def s3_key (pfx rel : String) : String :=
  String.mk (derive_key_posix pfx.data rel.data)

/-! ## The per-file decision (main.py lines 275-301)

`object_exists_and_modified` performs the metadata lookup and compares
`int(os.path.getmtime(path))` with `int(remote.last_modified.timestamp())`.
A 404 / `NoSuchKey` answer returns `True`; any other exception is caught
by the outer handler and also returns `True`. -/

/-- Outcome of the remote metadata lookup (`head_object` / `stat_object`):
the object's recorded modification time in integer seconds, absence
(404 / NoSuchKey), or any other backend error. -/
inductive StatResult
  | found (remote_mtime : Int)
  | notFound
  | backendError
deriving DecidableEq, Repr

/-- The decision of `object_exists_and_modified`, given the lookup outcome
and the local file's modification time truncated to integer seconds:
`found` compares strictly (`local_mtime > remote_mtime`), absence uploads,
and any other error falls back conservatively to upload. -/
def object_exists_and_modified (st : StatResult) (local_mtime : Int) : Bool :=
  match st with
  | .found remote_mtime => local_mtime > remote_mtime
  | .notFound => true
  | .backendError => true

/-! ## The walk loop (main.py lines 303-333) -/

/-- A regular file yielded by the `os.walk` over the local root:
its path relative to the root and its modification time already truncated
to integer seconds. -/
structure LocalFile where
  relPath : String
  mtime : Int
deriving DecidableEq, Repr

/-- The remote bucket content visible to the sync engine: each key either
holds an object with a recorded last-modified time (integer seconds) or is
absent. -/
def RemoteStore : Type := String → Option Int

/-- Injected backend faults, per key: `statFault` makes the metadata
lookup raise an error other than not-found, `uploadFault` makes
`upload_file` raise. -/
structure Faults where
  statFault : String → Bool
  uploadFault : String → Bool

/-- A fault-free backend. -/
def no_faults : Faults :=
  ⟨fun _ => false, fun _ => false⟩

/-- The metadata lookup as the engine sees it: a fault raises a backend
error; otherwise the store answers with the recorded time or absence. -/
def stat_object (fl : Faults) (store : RemoteStore) (key : String) : StatResult :=
  if fl.statFault key then .backendError
  else
    match store key with
    | some r => .found r
    | none => .notFound

/-- A successful upload overwrites the object at `key`; the backend
records last-modified time `t` for it. -/
def update_store (store : RemoteStore) (key : String) (t : Int) : RemoteStore :=
  fun k => if k = key then some t else store k

/-- What happened to one file during the walk, mirroring the three log
lines of the loop body: uploaded, skipped (not modified), or counted as an
error. -/
inductive Outcome
  | uploaded
  | skipped
  | errored
deriving DecidableEq, Repr

/-- State threaded through the walk: the remote store, the three counters
of `incremental_upload`, and the per-file outcome trace (the sequence of
`Uploaded`/`Skipped`/`Error` log events, in walk order). -/
structure SyncState where
  store : RemoteStore
  upload_count : Nat
  skip_count : Nat
  error_count : Nat
  trace : List (LocalFile × Outcome)

/-- The body of the walk loop for one file: derive the key, decide with
`object_exists_and_modified`, then upload (counting an error if the upload
call raises) or skip.  The `try/except` around the body means an upload
failure only increments `error_count`; the metadata lookup itself never
raises out of `object_exists_and_modified`. -/
def sync_step (fl : Faults) (recTime : String → Int) (pfx : String)
    (s : SyncState) (f : LocalFile) : SyncState :=
  if object_exists_and_modified (stat_object fl s.store (s3_key pfx f.relPath)) f.mtime then
    if fl.uploadFault (s3_key pfx f.relPath) then
      { s with error_count := s.error_count + 1, trace := s.trace ++ [(f, .errored)] }
    else
      { s with
          store := update_store s.store (s3_key pfx f.relPath) (recTime (s3_key pfx f.relPath)),
          upload_count := s.upload_count + 1,
          trace := s.trace ++ [(f, .uploaded)] }
  else
    { s with skip_count := s.skip_count + 1, trace := s.trace ++ [(f, .skipped)] }

/-- The initial state of a run: the given remote store, all counters zero,
empty trace. -/
def init_state (store : RemoteStore) : SyncState :=
  ⟨store, 0, 0, 0, []⟩

/-- `incremental_upload(local_path, s3_client, bucket_name, s3_prefix)`:
if the local root does not exist the function returns at once (nothing
looked up, nothing uploaded, counters never incremented); otherwise it
folds the loop body over the walked files.  `recTime key` is the
last-modified time the backend records for an object uploaded at `key`
during this run. -/
def incremental_upload (fl : Faults) (recTime : String → Int)
    (local_path_exists : Bool) (files : List LocalFile)
    (store : RemoteStore) (pfx : String) : SyncState :=
  if local_path_exists then
    files.foldl (sync_step fl recTime pfx) (init_state store)
  else
    init_state store

/-! ## Cross-platform view of a relative path

`os.path.relpath` renders the same file with `/` separators on POSIX and
`\` separators on Windows.  For a POSIX-rendered relative path (which, to
describe a file that can exist on both platforms, contains no backslash),
the Windows rendering of the same file replaces each `/` by `\`. -/

/-- The Windows (`ntpath`) rendering of a POSIX-rendered relative path:
every `/` becomes `\`. -/
def to_windows_sep (r : List Char) : List Char :=
  r.map (fun c => if c = '/' then '\\' else c)

/-! ## Top-level orchestration (main.py lines 336-378)

`main` runs the pipeline validate-config → makedirs → backup_db →
client-init → ensure_bucket_exists → db upload → incremental_upload
inside one `try/except Exception` whose handler logs the failure; the
`raise` at its end is commented out, so `main` returns normally whatever
happens. -/

/-- The stages of `main`'s pipeline, in program order. -/
inductive Stage
  | validateConfig
  | makeBackupDir
  | backupDb
  | clientInit
  | ensureBucket
  | dbUpload
  | mediaSync
deriving DecidableEq, Repr

/-- Success/failure oracles for the fallible stages of the pipeline.
`incremental_upload` has no oracle: it catches its per-file errors itself
and never raises. -/
structure RunOracles where
  validate_ok : Bool
  makedirs_ok : Bool
  backup_db_ok : Bool
  client_ok : Bool
  ensure_bucket_ok : Bool
  db_upload_ok : Bool

/-- The body of `main`'s `try` block: runs the stages in order, stopping
at the first failure.  Returns the stages that completed and the failing
stage, if any. -/
def pipeline (o : RunOracles) : List Stage × Option Stage :=
  if !o.validate_ok then ([], some .validateConfig)
  else if !o.makedirs_ok then ([.validateConfig], some .makeBackupDir)
  else if !o.backup_db_ok then
    ([.validateConfig, .makeBackupDir], some .backupDb)
  else if !o.client_ok then
    ([.validateConfig, .makeBackupDir, .backupDb], some .clientInit)
  else if !o.ensure_bucket_ok then
    ([.validateConfig, .makeBackupDir, .backupDb, .clientInit], some .ensureBucket)
  else if !o.db_upload_ok then
    ([.validateConfig, .makeBackupDir, .backupDb, .clientInit, .ensureBucket],
     some .dbUpload)
  else
    ([.validateConfig, .makeBackupDir, .backupDb, .clientInit, .ensureBucket,
      .dbUpload, .mediaSync], none)

/-- `main` itself.  An `Except.error` value would model an exception
propagating out of `main` to its caller; because the handler's `raise`
(main.py line 378) is commented out, every pipeline failure is logged and
then swallowed, and `main` answers `Except.ok` (carrying, for inspection,
the stage that failed, which the Python function only logs). -/
def main (o : RunOracles) : Except Stage (Option Stage) :=
  match (pipeline o).2 with
  | some st => Except.ok (some st)
  | none => Except.ok none

/-! ## Concrete fixtures used by witness theorems -/

/-- A one-object remote store: `media/a.txt` recorded at 5 seconds. -/
def ex_store : RemoteStore :=
  fun k => if k = "media/a.txt" then some 5 else none

/-- A backend whose upload call fails for the key `media/a.txt` only. -/
def ex_faults : Faults :=
  ⟨fun _ => false, fun k => k == "media/a.txt"⟩

/-! ## Theorems -/

/-- Each loop iteration does exactly one of three things: count a skip,
count an error, or record the upload in the store and count it; in every
case it appends the file's outcome to the trace. -/
theorem sync_step_cases (fl : Faults) (recTime : String → Int) (pfx : String)
    (s : SyncState) (f : LocalFile) :
    sync_step fl recTime pfx s f
      = { s with skip_count := s.skip_count + 1, trace := s.trace ++ [(f, Outcome.skipped)] }
    ∨ sync_step fl recTime pfx s f
      = { s with error_count := s.error_count + 1, trace := s.trace ++ [(f, Outcome.errored)] }
    ∨ sync_step fl recTime pfx s f
      = { s with
            store := update_store s.store (s3_key pfx f.relPath) (recTime (s3_key pfx f.relPath)),
            upload_count := s.upload_count + 1,
            trace := s.trace ++ [(f, Outcome.uploaded)] } := by
  unfold sync_step
  split
  · split
    · exact Or.inr (Or.inl rfl)
    · exact Or.inr (Or.inr rfl)
  · exact Or.inl rfl

/-- C1: for a file whose destination object exists (the metadata lookup
succeeds and finds a recorded time `r`), the upload is performed exactly
when the local modification time (integer seconds) is strictly greater
than `r`; when it is equal or smaller the file is skipped and neither the
store nor the upload/error counters change. -/
theorem existing_object_uploaded_iff_strictly_newer
    (fl : Faults) (recTime : String → Int) (pfx : String)
    (s : SyncState) (f : LocalFile) (r : Int)
    (hfault : fl.statFault (s3_key pfx f.relPath) = false)
    (hstore : s.store (s3_key pfx f.relPath) = some r) :
    (f.mtime ≤ r →
      sync_step fl recTime pfx s f
        = { s with skip_count := s.skip_count + 1, trace := s.trace ++ [(f, Outcome.skipped)] })
    ∧ (r < f.mtime → fl.uploadFault (s3_key pfx f.relPath) = false →
      sync_step fl recTime pfx s f
        = { s with
              store := update_store s.store (s3_key pfx f.relPath) (recTime (s3_key pfx f.relPath)),
              upload_count := s.upload_count + 1,
              trace := s.trace ++ [(f, Outcome.uploaded)] })
    ∧ (r < f.mtime → fl.uploadFault (s3_key pfx f.relPath) = true →
      sync_step fl recTime pfx s f
        = { s with error_count := s.error_count + 1, trace := s.trace ++ [(f, Outcome.errored)] }) := by
  have hstat : stat_object fl s.store (s3_key pfx f.relPath) = StatResult.found r := by
    simp [stat_object, hfault, hstore]
  refine ⟨?_, ?_, ?_⟩
  · intro hle
    have hd : object_exists_and_modified (stat_object fl s.store (s3_key pfx f.relPath)) f.mtime
        = false := by
      rw [hstat]
      simp [object_exists_and_modified]
      omega
    unfold sync_step
    rw [hd]
    simp
  · intro hlt hup
    have hd : object_exists_and_modified (stat_object fl s.store (s3_key pfx f.relPath)) f.mtime
        = true := by
      rw [hstat]
      simp [object_exists_and_modified]
      omega
    unfold sync_step
    rw [hd, hup]
    simp
  · intro hlt hup
    have hd : object_exists_and_modified (stat_object fl s.store (s3_key pfx f.relPath)) f.mtime
        = true := by
      rw [hstat]
      simp [object_exists_and_modified]
      omega
    unfold sync_step
    rw [hd, hup]
    simp

/-- Witness for C1: with `media/a.txt` recorded at 5 and a local mtime of
7, the step uploads; the recorded time becomes the backend's (9). -/
theorem existing_object_uploaded_iff_strictly_newer_witness :
    sync_step no_faults (fun _ => 9) "media/" (init_state ex_store) ⟨"a.txt", 7⟩
      = { init_state ex_store with
            store := update_store ex_store (s3_key "media/" "a.txt") 9,
            upload_count := 1,
            trace := [(⟨"a.txt", 7⟩, Outcome.uploaded)] } := by
  have h := (existing_object_uploaded_iff_strictly_newer no_faults (fun _ => 9) "media/"
    (init_state ex_store) ⟨"a.txt", 7⟩ 5 (by decide) (by decide)).2.1 (by decide) (by decide)
  simpa [init_state] using h

/-- C2: for a file whose destination key has no remote object (the lookup
reports not-found), the file is not skipped — the upload is attempted —
and when the upload call succeeds the object is written and counted as
uploaded. -/
theorem absent_object_uploaded
    (fl : Faults) (recTime : String → Int) (pfx : String)
    (s : SyncState) (f : LocalFile)
    (hfault : fl.statFault (s3_key pfx f.relPath) = false)
    (hstore : s.store (s3_key pfx f.relPath) = none) :
    ((sync_step fl recTime pfx s f).skip_count = s.skip_count)
    ∧ (fl.uploadFault (s3_key pfx f.relPath) = false →
      sync_step fl recTime pfx s f
        = { s with
              store := update_store s.store (s3_key pfx f.relPath) (recTime (s3_key pfx f.relPath)),
              upload_count := s.upload_count + 1,
              trace := s.trace ++ [(f, Outcome.uploaded)] }) := by
  have hd : object_exists_and_modified (stat_object fl s.store (s3_key pfx f.relPath)) f.mtime
      = true := by
    simp [stat_object, hfault, hstore, object_exists_and_modified]
  constructor
  · unfold sync_step
    rw [hd]
    split
    · split <;> rfl
    · simp_all
  · intro hup
    unfold sync_step
    rw [hd, hup]
    simp

/-- Witness for C2: an empty store and local file `a.txt` at mtime 7; the
step uploads it and records time 9. -/
theorem absent_object_uploaded_witness :
    (sync_step no_faults (fun _ => 9) "media/" (init_state (fun _ => none)) ⟨"a.txt", 7⟩).skip_count = 0
    ∧ sync_step no_faults (fun _ => 9) "media/" (init_state (fun _ => none)) ⟨"a.txt", 7⟩
      = { init_state (fun _ => none) with
            store := update_store (fun _ => none) (s3_key "media/" "a.txt") 9,
            upload_count := 1,
            trace := [(⟨"a.txt", 7⟩, Outcome.uploaded)] } := by
  have h := absent_object_uploaded no_faults (fun _ => 9) "media/"
    (init_state (fun _ => none)) ⟨"a.txt", 7⟩ (by decide) (by decide)
  exact ⟨h.1, by simpa [init_state] using h.2 (by decide)⟩

/-- C3: when the metadata lookup fails with a backend error other than
not-found, the file is treated as needing upload: it is never skipped, and
when the upload call succeeds it is uploaded and counted. -/
theorem stat_error_falls_back_to_upload
    (fl : Faults) (recTime : String → Int) (pfx : String)
    (s : SyncState) (f : LocalFile)
    (hfault : fl.statFault (s3_key pfx f.relPath) = true) :
    ((sync_step fl recTime pfx s f).skip_count = s.skip_count)
    ∧ (fl.uploadFault (s3_key pfx f.relPath) = false →
      sync_step fl recTime pfx s f
        = { s with
              store := update_store s.store (s3_key pfx f.relPath) (recTime (s3_key pfx f.relPath)),
              upload_count := s.upload_count + 1,
              trace := s.trace ++ [(f, Outcome.uploaded)] }) := by
  have hd : object_exists_and_modified (stat_object fl s.store (s3_key pfx f.relPath)) f.mtime
      = true := by
    simp [stat_object, hfault, object_exists_and_modified]
  constructor
  · unfold sync_step
    rw [hd]
    split
    · split <;> rfl
    · simp_all
  · intro hup
    unfold sync_step
    rw [hd, hup]
    simp

/-- Witness for C3: the lookup for `media/a.txt` raises a backend error
(fault injected), the object is even present and newer than the local
file, yet the file is uploaded, not skipped. -/
theorem stat_error_falls_back_to_upload_witness :
    (sync_step ⟨fun _ => true, fun _ => false⟩ (fun _ => 9) "media/"
        (init_state ex_store) ⟨"a.txt", 3⟩).skip_count = 0
    ∧ sync_step ⟨fun _ => true, fun _ => false⟩ (fun _ => 9) "media/"
        (init_state ex_store) ⟨"a.txt", 3⟩
      = { init_state ex_store with
            store := update_store ex_store (s3_key "media/" "a.txt") 9,
            upload_count := 1,
            trace := [(⟨"a.txt", 3⟩, Outcome.uploaded)] } := by
  have h := stat_error_falls_back_to_upload ⟨fun _ => true, fun _ => false⟩ (fun _ => 9) "media/"
    (init_state ex_store) ⟨"a.txt", 3⟩ (by decide)
  exact ⟨h.1, by simpa [init_state] using h.2 (by decide)⟩

/-- Each iteration appends exactly one outcome for its file to the trace,
and that outcome is `errored` exactly when the upload call was made for
the file (it was not skipped) and the call failed. -/
theorem sync_step_appends (fl : Faults) (recTime : String → Int) (pfx : String)
    (s : SyncState) (f : LocalFile) :
    ∃ o, (sync_step fl recTime pfx s f).trace = s.trace ++ [(f, o)]
      ∧ (o = Outcome.errored
          ↔ (fl.uploadFault (s3_key pfx f.relPath) = true ∧ o ≠ Outcome.skipped)) := by
  unfold sync_step
  split
  · split
    · rename_i hfault
      exact ⟨Outcome.errored, rfl, by simp [hfault]⟩
    · rename_i hfault
      refine ⟨Outcome.uploaded, rfl, by simp_all⟩
  · exact ⟨Outcome.skipped, rfl, by simp⟩

/-- Over a walk, the files of the appended trace entries are exactly the
walked files, in order: no failure removes a later file from the walk. -/
theorem run_trace_map_fst (fl : Faults) (recTime : String → Int) (pfx : String) :
    ∀ (files : List LocalFile) (s : SyncState),
    ((files.foldl (sync_step fl recTime pfx) s).trace).map Prod.fst
      = s.trace.map Prod.fst ++ files := by
  intro files
  induction files with
  | nil => intro s; simp
  | cons f fs ih =>
    intro s
    rw [List.foldl_cons, ih]
    rcases sync_step_cases fl recTime pfx s f with h | h | h <;> rw [h] <;> simp

/-- Over a walk, each processed file adds exactly one to the sum of the
three counters. -/
theorem run_counter_sum (fl : Faults) (recTime : String → Int) (pfx : String) :
    ∀ (files : List LocalFile) (s : SyncState),
    (files.foldl (sync_step fl recTime pfx) s).upload_count
      + (files.foldl (sync_step fl recTime pfx) s).skip_count
      + (files.foldl (sync_step fl recTime pfx) s).error_count
      = s.upload_count + s.skip_count + s.error_count + files.length := by
  intro files
  induction files with
  | nil => intro s; simp
  | cons f fs ih =>
    intro s
    rw [List.foldl_cons, ih]
    rcases sync_step_cases fl recTime pfx s f with h | h | h <;> rw [h] <;> simp <;> omega

/-- The error counter counts exactly the `errored` entries of the trace. -/
theorem run_error_count_eq_trace (fl : Faults) (recTime : String → Int) (pfx : String) :
    ∀ (files : List LocalFile) (s : SyncState),
    s.error_count = s.trace.countP (fun p => p.2 == Outcome.errored) →
    (files.foldl (sync_step fl recTime pfx) s).error_count
      = ((files.foldl (sync_step fl recTime pfx) s).trace).countP
          (fun p => p.2 == Outcome.errored) := by
  intro files
  induction files with
  | nil => intro s h; exact h
  | cons f fs ih =>
    intro s h
    rw [List.foldl_cons]
    refine ih _ ?_
    rcases sync_step_cases fl recTime pfx s f with h1 | h1 | h1 <;> rw [h1] <;>
      simp [List.countP_append, h]

/-- Any pointwise property of trace entries established by `sync_step` is
preserved over a walk. -/
theorem run_trace_entries (fl : Faults) (recTime : String → Int) (pfx : String) :
    ∀ (files : List LocalFile) (s : SyncState),
    (∀ p ∈ s.trace,
      p.2 = Outcome.errored
        ↔ (fl.uploadFault (s3_key pfx p.1.relPath) = true ∧ p.2 ≠ Outcome.skipped)) →
    ∀ p ∈ (files.foldl (sync_step fl recTime pfx) s).trace,
      p.2 = Outcome.errored
        ↔ (fl.uploadFault (s3_key pfx p.1.relPath) = true ∧ p.2 ≠ Outcome.skipped) := by
  intro files
  induction files with
  | nil => intro s h; exact h
  | cons f fs ih =>
    intro s h
    rw [List.foldl_cons]
    refine ih _ ?_
    obtain ⟨o, htr, ho⟩ := sync_step_appends fl recTime pfx s f
    rw [htr]
    intro p hp
    rcases List.mem_append.mp hp with hp | hp
    · exact h p hp
    · rcases List.mem_singleton.mp hp with rfl
      exact ho

/-- After a walk, the store at any key is either untouched or holds the
backend-recorded time of an upload of some walked file mapping to that
key. -/
theorem run_store_cases (fl : Faults) (recTime : String → Int) (pfx : String) :
    ∀ (files : List LocalFile) (s : SyncState) (k : String),
    (files.foldl (sync_step fl recTime pfx) s).store k = s.store k
    ∨ ((files.foldl (sync_step fl recTime pfx) s).store k = some (recTime k)
        ∧ ∃ f, f ∈ files ∧ s3_key pfx f.relPath = k) := by
  intro files
  induction files with
  | nil => intro s k; exact Or.inl rfl
  | cons f fs ih =>
    intro s k
    rw [List.foldl_cons]
    rcases sync_step_cases fl recTime pfx s f with h | h | h <;> rw [h]
    · rcases ih _ k with h2 | ⟨h2, g, hg, hk⟩
      · exact Or.inl h2
      · exact Or.inr ⟨h2, g, List.mem_cons_of_mem _ hg, hk⟩
    · rcases ih _ k with h2 | ⟨h2, g, hg, hk⟩
      · exact Or.inl h2
      · exact Or.inr ⟨h2, g, List.mem_cons_of_mem _ hg, hk⟩
    · rcases ih _ k with h2 | ⟨h2, g, hg, hk⟩
      · by_cases hk : k = s3_key pfx f.relPath
        · refine Or.inr ⟨?_, f, List.mem_cons_self _ _, hk.symm⟩
          rw [h2]
          simp [update_store, hk]
        · refine Or.inl ?_
          rw [h2]
          simp [update_store, hk]
      · exact Or.inr ⟨h2, g, List.mem_cons_of_mem _ hg, hk⟩

/-- C9: over one run every walked file is visited exactly once (the trace
records the walked files, in order, one entry each) and each visit
increments exactly one counter, so uploaded + skipped + errored equals the
number of files. -/
theorem every_file_visited_once_and_counted
    (fl : Faults) (recTime : String → Int) (files : List LocalFile)
    (store : RemoteStore) (pfx : String) :
    ((incremental_upload fl recTime true files store pfx).trace).map Prod.fst = files
    ∧ (incremental_upload fl recTime true files store pfx).upload_count
      + (incremental_upload fl recTime true files store pfx).skip_count
      + (incremental_upload fl recTime true files store pfx).error_count
      = files.length := by
  constructor
  · have h := run_trace_map_fst fl recTime pfx files (init_state store)
    simpa [incremental_upload, init_state] using h
  · have h := run_counter_sum fl recTime pfx files (init_state store)
    simpa [incremental_upload, init_state] using h

/-- C4: one file's upload failure does not stop the walk — the trace still
records every file, in order — and the final error counter equals exactly
the number of files whose upload call was made and failed. -/
theorem upload_failure_isolated_and_counted
    (fl : Faults) (recTime : String → Int) (files : List LocalFile)
    (store : RemoteStore) (pfx : String) :
    ((incremental_upload fl recTime true files store pfx).trace).map Prod.fst = files
    ∧ (incremental_upload fl recTime true files store pfx).error_count
      = ((incremental_upload fl recTime true files store pfx).trace).countP
          (fun p => p.2 == Outcome.errored)
    ∧ ∀ p ∈ (incremental_upload fl recTime true files store pfx).trace,
        p.2 = Outcome.errored
          ↔ (fl.uploadFault (s3_key pfx p.1.relPath) = true ∧ p.2 ≠ Outcome.skipped) := by
  refine ⟨?_, ?_, ?_⟩
  · have h := run_trace_map_fst fl recTime pfx files (init_state store)
    simpa [incremental_upload, init_state] using h
  · have h := run_error_count_eq_trace fl recTime pfx files (init_state store) (by simp [init_state])
    simpa [incremental_upload] using h
  · have h := run_trace_entries fl recTime pfx files (init_state store) (by simp [init_state])
    simpa [incremental_upload] using h

/-- Witness for C4: with the upload of `media/a.txt` failing, both files
are still walked (in order) and the errored counter matches the single
errored trace entry; the errored entry is exactly the failed upload. -/
theorem upload_failure_isolated_and_counted_witness :
    ((incremental_upload ex_faults (fun _ => 9) true [⟨"a.txt", 7⟩, ⟨"b.txt", 8⟩]
        (fun _ => none) "media/").trace).map Prod.fst = [⟨"a.txt", 7⟩, ⟨"b.txt", 8⟩]
    ∧ (incremental_upload ex_faults (fun _ => 9) true [⟨"a.txt", 7⟩, ⟨"b.txt", 8⟩]
        (fun _ => none) "media/").error_count
      = ((incremental_upload ex_faults (fun _ => 9) true [⟨"a.txt", 7⟩, ⟨"b.txt", 8⟩]
          (fun _ => none) "media/").trace).countP (fun p => p.2 == Outcome.errored)
    ∧ ((⟨⟨"a.txt", 7⟩, Outcome.errored⟩ : LocalFile × Outcome).2 = Outcome.errored
        ↔ (ex_faults.uploadFault (s3_key "media/" (⟨"a.txt", 7⟩ : LocalFile).relPath) = true
            ∧ (⟨⟨"a.txt", 7⟩, Outcome.errored⟩ : LocalFile × Outcome).2 ≠ Outcome.skipped)) := by
  have h := upload_failure_isolated_and_counted ex_faults (fun _ => 9)
    [⟨"a.txt", 7⟩, ⟨"b.txt", 8⟩] (fun _ => none) "media/"
  exact ⟨h.1, h.2.1, h.2.2 ⟨⟨"a.txt", 7⟩, Outcome.errored⟩ (by decide)⟩

/-- C10: a run never deletes a remote object (a key holding an object
still holds one afterwards), and a key that is no walked file's derived
key is left exactly as it was. -/
theorem sync_frame (fl : Faults) (recTime : String → Int) (b : Bool)
    (files : List LocalFile) (store : RemoteStore) (pfx : String) (k : String) :
    ((store k).isSome = true →
      ((incremental_upload fl recTime b files store pfx).store k).isSome = true)
    ∧ ((∀ f ∈ files, s3_key pfx f.relPath ≠ k) →
      (incremental_upload fl recTime b files store pfx).store k = store k) := by
  cases b
  · constructor
    · intro h
      simpa [incremental_upload, init_state] using h
    · intro h
      simp [incremental_upload, init_state]
  · have h := run_store_cases fl recTime pfx files (init_state store) k
    have hru : incremental_upload fl recTime true files store pfx
        = files.foldl (sync_step fl recTime pfx) (init_state store) := by
      simp [incremental_upload]
    constructor
    · intro hs
      rw [hru]
      rcases h with h | ⟨h, _⟩
      · rw [h]; exact hs
      · rw [h]; rfl
    · intro hnone
      rw [hru]
      rcases h with h | ⟨h, g, hg, hk⟩
      · exact h
      · exact absurd hk (hnone g hg)

/-- Witness for C10: with one local file `a.txt`, the object at
`media/a.txt` is still present after the run, and the unrelated key
`media/other.txt` is untouched. -/
theorem sync_frame_witness :
    (((incremental_upload no_faults (fun _ => 9) true [⟨"a.txt", 7⟩] ex_store "media/").store
        "media/a.txt").isSome = true)
    ∧ ((incremental_upload no_faults (fun _ => 9) true [⟨"a.txt", 7⟩] ex_store "media/").store
        "media/other.txt" = ex_store "media/other.txt") :=
  ⟨(sync_frame no_faults (fun _ => 9) true [⟨"a.txt", 7⟩] ex_store "media/" "media/a.txt").1
      (by decide),
   (sync_frame no_faults (fun _ => 9) true [⟨"a.txt", 7⟩] ex_store "media/" "media/other.txt").2
      (by decide)⟩

/-- With a healthy backend, after a file's own iteration its derived key
holds an object whose recorded time is at least the file's modification
time, provided the backend records upload times no older than the local
file. -/
theorem sync_step_no_fault_covers (recTime : String → Int) (pfx : String)
    (s : SyncState) (f : LocalFile)
    (hrec : f.mtime ≤ recTime (s3_key pfx f.relPath)) :
    ∃ t, (sync_step no_faults recTime pfx s f).store (s3_key pfx f.relPath) = some t
      ∧ f.mtime ≤ t := by
  by_cases hd : object_exists_and_modified
      (stat_object no_faults s.store (s3_key pfx f.relPath)) f.mtime = true
  · refine ⟨recTime (s3_key pfx f.relPath), ?_, hrec⟩
    unfold sync_step
    rw [if_pos hd]
    have hup : no_faults.uploadFault (s3_key pfx f.relPath) = false := rfl
    rw [if_neg (by simp [hup])]
    simp [update_store]
  · cases hst : s.store (s3_key pfx f.relPath) with
    | none =>
      exact absurd (by simp [stat_object, no_faults, hst, object_exists_and_modified]) hd
    | some r =>
      have hle : f.mtime ≤ r := by
        by_contra hlt
        refine hd ?_
        simp [stat_object, no_faults, hst, object_exists_and_modified]
        omega
      refine ⟨r, ?_, hle⟩
      unfold sync_step
      rw [if_neg hd]
      exact hst

/-- With a healthy backend and upload times no older than the local
files, after a full run every walked file's derived key holds an object
at least as new as the file. -/
theorem run_covers_all_files (recTime : String → Int) (pfx : String) :
    ∀ (files : List LocalFile) (s : SyncState),
    (∀ f ∈ files, f.mtime ≤ recTime (s3_key pfx f.relPath)) →
    ∀ f ∈ files,
      ∃ t, (files.foldl (sync_step no_faults recTime pfx) s).store (s3_key pfx f.relPath)
            = some t
        ∧ f.mtime ≤ t := by
  intro files
  induction files with
  | nil => intro s _ f hf; exact absurd hf (List.not_mem_nil f)
  | cons g gs ih =>
    intro s hrec f hf
    rw [List.foldl_cons]
    rcases List.mem_cons.mp hf with rfl | hf
    · obtain ⟨t0, ht0, hle⟩ :=
        sync_step_no_fault_covers recTime pfx s f (hrec f (List.mem_cons_self _ _))
      rcases run_store_cases no_faults recTime pfx gs (sync_step no_faults recTime pfx s f)
          (s3_key pfx f.relPath) with h | ⟨h, _⟩
      · exact ⟨t0, by rw [h]; exact ht0, hle⟩
      · exact ⟨recTime (s3_key pfx f.relPath), h, hrec f (List.mem_cons_self _ _)⟩
    · exact ih (sync_step no_faults recTime pfx s g)
        (fun f' hf' => hrec f' (List.mem_cons_of_mem _ hf')) f hf

/-- With a healthy backend, a run over files whose derived keys all hold
objects at least as new as the local copies skips every file: the store
is untouched and only the skip counter moves. -/
theorem run_all_covered_skips (recTime : String → Int) (pfx : String) :
    ∀ (files : List LocalFile) (s : SyncState),
    (∀ f ∈ files, ∃ t, s.store (s3_key pfx f.relPath) = some t ∧ f.mtime ≤ t) →
    files.foldl (sync_step no_faults recTime pfx) s
      = { s with
            skip_count := s.skip_count + files.length,
            trace := s.trace ++ files.map (fun f => (f, Outcome.skipped)) } := by
  intro files
  induction files with
  | nil => intro s _; simp
  | cons f fs ih =>
    intro s hcov
    obtain ⟨t, hst, hle⟩ := hcov f (List.mem_cons_self _ _)
    have hd : object_exists_and_modified
        (stat_object no_faults s.store (s3_key pfx f.relPath)) f.mtime = false := by
      simp [stat_object, no_faults, hst, object_exists_and_modified]
      omega
    rw [List.foldl_cons]
    have hstep : sync_step no_faults recTime pfx s f
        = { s with skip_count := s.skip_count + 1, trace := s.trace ++ [(f, Outcome.skipped)] } := by
      unfold sync_step
      rw [hd]
      simp
    rw [hstep]
    rw [ih { s with skip_count := s.skip_count + 1, trace := s.trace ++ [(f, Outcome.skipped)] }
        (fun f' hf' => hcov f' (List.mem_cons_of_mem _ hf'))]
    simp only [SyncState.mk.injEq, List.append_assoc, List.singleton_append, List.map_cons,
      List.length_cons, and_true, true_and]
    omega

/-- C5: running `sync` twice with unchanged local files on a healthy
backend uploads nothing on the second run — every file is skipped — given
that each upload records a remote time at least as large as the local
file's modification time. -/
theorem second_run_uploads_nothing
    (recTime : String → Int) (pfx : String) (files : List LocalFile) (store : RemoteStore)
    (hrec : ∀ f ∈ files, f.mtime ≤ recTime (s3_key pfx f.relPath)) :
    (incremental_upload no_faults recTime true files
        (incremental_upload no_faults recTime true files store pfx).store pfx).upload_count = 0
    ∧ (incremental_upload no_faults recTime true files
        (incremental_upload no_faults recTime true files store pfx).store pfx).skip_count
      = files.length
    ∧ (incremental_upload no_faults recTime true files
        (incremental_upload no_faults recTime true files store pfx).store pfx).error_count
      = 0 := by
  have hru : ∀ (st : RemoteStore), incremental_upload no_faults recTime true files st pfx
      = files.foldl (sync_step no_faults recTime pfx) (init_state st) := by
    intro st
    simp [incremental_upload]
  have hcov : ∀ f ∈ files,
      ∃ t, (init_state (incremental_upload no_faults recTime true files store pfx).store).store
            (s3_key pfx f.relPath) = some t
        ∧ f.mtime ≤ t := by
    intro f hf
    rw [hru store]
    exact run_covers_all_files recTime pfx files (init_state store) hrec f hf
  rw [hru, run_all_covered_skips recTime pfx files _ hcov]
  simp [init_state]

/-- Witness for C5: one file `a.txt` (mtime 7), empty store, backend
recording time 7; the second run uploads nothing and skips the file. -/
theorem second_run_uploads_nothing_witness :
    (incremental_upload no_faults (fun _ => 7) true [⟨"a.txt", 7⟩]
        (incremental_upload no_faults (fun _ => 7) true [⟨"a.txt", 7⟩]
          (fun _ => none) "media/").store "media/").upload_count = 0
    ∧ (incremental_upload no_faults (fun _ => 7) true [⟨"a.txt", 7⟩]
        (incremental_upload no_faults (fun _ => 7) true [⟨"a.txt", 7⟩]
          (fun _ => none) "media/").store "media/").skip_count = 1
    ∧ (incremental_upload no_faults (fun _ => 7) true [⟨"a.txt", 7⟩]
        (incremental_upload no_faults (fun _ => 7) true [⟨"a.txt", 7⟩]
          (fun _ => none) "media/").store "media/").error_count = 0 :=
  second_run_uploads_nothing (fun _ => 7) "media/" [⟨"a.txt", 7⟩] (fun _ => none)
    (by decide)

/-- `replace("\\", "/")` leaves a backslash-free string unchanged. -/
theorem replace_backslashes_id {r : List Char} (h : '\\' ∉ r) :
    replace_backslashes r = r := by
  induction r with
  | nil => rfl
  | cons c cs ih =>
    rw [List.mem_cons, not_or] at h
    have h1 : c ≠ '\\' := fun hh => h.1 hh.symm
    show norm_sep c :: replace_backslashes cs = c :: cs
    rw [ih h.2]
    simp [norm_sep, h1]

/-- `replace("\\", "/")` distributes over concatenation. -/
theorem replace_backslashes_append (a b : List Char) :
    replace_backslashes (a ++ b) = replace_backslashes a ++ replace_backslashes b :=
  List.map_append _ _ _

/-- Normalizing the Windows rendering of a backslash-free POSIX relative
path gives back the POSIX rendering. -/
theorem replace_to_windows {r : List Char} (h : '\\' ∉ r) :
    replace_backslashes (to_windows_sep r) = r := by
  induction r with
  | nil => rfl
  | cons c cs ih =>
    rw [List.mem_cons, not_or] at h
    have h1 : c ≠ '\\' := fun hh => h.1 hh.symm
    show norm_sep (if c = '/' then '\\' else c) :: replace_backslashes (to_windows_sep cs) = c :: cs
    rw [ih h.2]
    by_cases hcs : c = '/'
    · subst hcs; rfl
    · simp [norm_sep, hcs, h1]

/-- The Windows rendering of a backslash-free relative path starts with a
separator exactly when the POSIX rendering starts with `/`. -/
theorem to_windows_abs_iff {r : List Char} (h : '\\' ∉ r) :
    ((to_windows_sep r).take 1 = ['/'] ∨ (to_windows_sep r).take 1 = ['\\'])
      ↔ r.take 1 = ['/'] := by
  cases r with
  | nil => simp [to_windows_sep]
  | cons c cs =>
    rw [List.mem_cons, not_or] at h
    have h1 : c ≠ '\\' := fun hh => h.1 hh.symm
    by_cases hcs : c = '/'
    · subst hcs; simp [to_windows_sep]
    · simp [to_windows_sep, hcs, h1]

/-- The derivation of line 319 computes the same key on POSIX and on
Windows for the same file (a backslash-free relative path, rendered with
the host's separator), for any prefix not ending in a backslash. -/
theorem derive_key_platform_agnostic (pfx r : List Char)
    (h : '\\' ∉ r) (hp : pfx.getLast? ≠ some '\\') :
    derive_key_nt pfx (to_windows_sep r) = derive_key_posix pfx r := by
  unfold derive_key_nt derive_key_posix nt_join posix_join
  by_cases habs : r.take 1 = ['/']
  · rw [if_pos ((to_windows_abs_iff h).mpr habs), if_pos habs, replace_to_windows h,
      replace_backslashes_id h]
  · rw [if_neg (fun hw => habs ((to_windows_abs_iff h).mp hw)), if_neg habs]
    by_cases hc : pfx = [] ∨ pfx.getLast? = some '/'
    · have hcn : pfx = [] ∨ pfx.getLast? = some '/' ∨ pfx.getLast? = some '\\' := by
        rcases hc with h0 | h0
        · exact Or.inl h0
        · exact Or.inr (Or.inl h0)
      rw [if_pos hcn, if_pos hc, replace_backslashes_append, replace_backslashes_append,
        replace_to_windows h, replace_backslashes_id h]
    · have hcn : ¬(pfx = [] ∨ pfx.getLast? = some '/' ∨ pfx.getLast? = some '\\') := by
        rintro (h0 | h0 | h0)
        · exact hc (Or.inl h0)
        · exact hc (Or.inr h0)
        · exact hp h0
      rw [if_neg hcn, if_neg hc]
      rw [replace_backslashes_append, replace_backslashes_append,
        replace_backslashes_append, replace_backslashes_append,
        replace_to_windows h, replace_backslashes_id h]
      rfl

/-- For backslash-free, genuinely relative paths (not starting with `/`),
the key derivation with a common prefix is injective. -/
theorem s3_key_injective_on_clean_paths (pfx r1 r2 : String)
    (h1 : '\\' ∉ r1.data) (h2 : '\\' ∉ r2.data)
    (ha1 : r1.data.take 1 ≠ ['/']) (ha2 : r2.data.take 1 ≠ ['/'])
    (heq : s3_key pfx r1 = s3_key pfx r2) : r1 = r2 := by
  have hd : derive_key_posix pfx.data r1.data = derive_key_posix pfx.data r2.data :=
    congrArg String.data heq
  unfold derive_key_posix posix_join at hd
  rw [if_neg ha1, if_neg ha2] at hd
  by_cases hc : pfx.data = [] ∨ pfx.data.getLast? = some '/'
  · rw [if_pos hc, if_pos hc] at hd
    simp only [replace_backslashes_append] at hd
    rw [replace_backslashes_id h1, replace_backslashes_id h2] at hd
    exact String.ext (List.append_cancel_left hd)
  · rw [if_neg hc, if_neg hc] at hd
    simp only [replace_backslashes_append] at hd
    rw [replace_backslashes_id h1, replace_backslashes_id h2] at hd
    exact String.ext (List.append_cancel_left hd)

/-- C6 counterexample: on a POSIX host the relative paths `a\b` (a file
whose name contains a literal backslash) and `a/b` (file `b` in directory
`a`) are distinct, yet line 319's `replace("\\", "/")` maps both to the
key `media/a/b`. -/
theorem key_derivation_not_injective :
    s3_key "media/" "a\\b" = s3_key "media/" "a/b" ∧ ("a\\b" : String) ≠ "a/b" := by
  constructor
  · decide
  · decide

/-- C6 (amended): the derived key is the prefix joined with the relative
path with separators normalized to `/` (e.g. `sub/dir/file.txt` under
prefix `media/` yields `media/sub/dir/file.txt`); the derivation is
injective for relative paths that contain no backslash character and do
not start with a separator; and it is platform-independent: the POSIX and
Windows derivations of the same backslash-free file agree for any prefix
not ending in a backslash. -/
theorem key_derivation_amended :
    (s3_key "media/" "sub/dir/file.txt" = "media/sub/dir/file.txt")
    ∧ (∀ (pfx r1 r2 : String), '\\' ∉ r1.data → '\\' ∉ r2.data →
        r1.data.take 1 ≠ ['/'] → r2.data.take 1 ≠ ['/'] →
        s3_key pfx r1 = s3_key pfx r2 → r1 = r2)
    ∧ (∀ (pfx r : List Char), '\\' ∉ r → pfx.getLast? ≠ some '\\' →
        derive_key_nt pfx (to_windows_sep r) = derive_key_posix pfx r) := by
  refine ⟨by decide, ?_, ?_⟩
  · intro pfx r1 r2 h1 h2 ha1 ha2 heq
    exact s3_key_injective_on_clean_paths pfx r1 r2 h1 h2 ha1 ha2 heq
  · intro pfx r h hp
    exact derive_key_platform_agnostic pfx r h hp

/-- Witness for the amended C6: the injectivity and platform-independence
parts applied at concrete inputs. -/
theorem key_derivation_amended_witness :
    ("a.txt" : String) = "a.txt"
    ∧ derive_key_nt ("media/").data (to_windows_sep ("sub/dir/file.txt").data)
      = derive_key_posix ("media/").data ("sub/dir/file.txt").data :=
  ⟨key_derivation_amended.2.1 "media/" "a.txt" "a.txt" (by decide) (by decide) (by decide)
      (by decide) rfl,
   key_derivation_amended.2.2 ("media/").data ("sub/dir/file.txt").data (by decide) (by decide)⟩

/-- C7: when the local root does not exist, `incremental_upload` returns
immediately: no lookup and no upload happens (the trace is empty and the
store is untouched) and all three counters are zero. -/
theorem missing_root_is_noop (fl : Faults) (recTime : String → Int)
    (files : List LocalFile) (store : RemoteStore) (pfx : String) :
    incremental_upload fl recTime false files store pfx = ⟨store, 0, 0, 0, []⟩ := by
  simp [incremental_upload, init_state]

/-- C8: a bucket-ensure failure is fatal to the rest of the run (neither
the database upload nor the media sync happens), but `main` does not let
it propagate: the `except` handler logs it and — the `raise` being
commented out — `main` returns normally for every possible oracle, so no
pipeline error ever reaches `main`'s caller. -/
theorem bucket_failure_fatal_but_swallowed :
    (pipeline ⟨true, true, true, true, false, true⟩).2 = some Stage.ensureBucket
    ∧ Stage.dbUpload ∉ (pipeline ⟨true, true, true, true, false, true⟩).1
    ∧ Stage.mediaSync ∉ (pipeline ⟨true, true, true, true, false, true⟩).1
    ∧ main ⟨true, true, true, true, false, true⟩ = Except.ok (some Stage.ensureBucket)
    ∧ ∀ (o : RunOracles), (main o).isOk = true := by
  refine ⟨by decide, by decide, by decide, rfl, ?_⟩
  intro o
  unfold main
  rcases (pipeline o).2 with _ | st <;> rfl

end PaperlessBackup
